import Mathlib

/- A shallow embedding of the assistant-server booking front-end
   (src/server.js): the text normalizer `norm`, the catalog resolver
   (`mapServicesToIds`, `mapBarberToId`), the zod schemas
   (`CatalogSchema`, `IntentSchema`), the planner-output JSON parsing,
   and the branching of the POST /chat handler.

   Modelling conventions:
   - JS strings are lists of characters (`Str`).
   - JS numbers are integers (`Int`); the program only traffics in
     integer ids, dates and times are strings.
   - Fallible steps (JSON.parse, zod safeParse) return `Option`.
   - The two outbound model calls are an external boundary: their
     returned `message.content` values (possibly absent) are inputs of
     the handler function. -/

namespace AssistantServer

/-- Strings of the JS program, modelled as lists of characters. -/
abbrev Str := List Char

/-- The character list of a Lean string literal. -/
def strOf (s : String) : Str := s.data

/-- JSON / JS values flowing through the handler. -/
inductive Json where
  | null : Json
  | bool (b : Bool) : Json
  | num (n : Int) : Json
  | str (s : Str) : Json
  | arr (elems : List Json) : Json
  | obj (fields : List (Str × Json)) : Json

/-- `typeof v === 'string'` for our value model. -/
def Json.isStr : Json → Bool
  | .str _ => true
  | _ => false

/-- Last-binding field lookup on a JS object (later duplicate JSON keys
    shadow earlier ones, as in JSON.parse). Non-objects have no fields. -/
def Json.get? : Json → Str → Option Json
  | .obj fields, k => (fields.reverse.find? (fun f => f.1 = k)).map (·.2)
  | _, _ => none

/- ===== Text normalizer =====
   src/server.js line 38:
   const norm = (s='') => s.normalize('NFD').replace(/\p{Diacritic}/gu,'').toLowerCase().trim();
-/

/-- Whitespace recognised by JS String.prototype.trim (the usual members). -/
def isWsChar (c : Char) : Bool :=
  c = ' ' || c = '\t' || c = '\n' || c = '\r' ||
  c.toNat = 11 || c.toNat = 12 || c.toNat = 0xA0 || c.toNat = 0xFEFF

/-- The NFD decomposition table for the accented Latin letters of the
    program's Spanish-language domain (acute-accented vowels, diaeresis
    u, tilde n, both cases): base letter plus combining mark. -/
def nfdPairs : List (Char × List Char) :=
  [('á', ['a', Char.ofNat 0x301]), ('é', ['e', Char.ofNat 0x301]),
   ('í', ['i', Char.ofNat 0x301]), ('ó', ['o', Char.ofNat 0x301]),
   ('ú', ['u', Char.ofNat 0x301]), ('ü', ['u', Char.ofNat 0x308]),
   ('ñ', ['n', Char.ofNat 0x303]),
   ('Á', ['A', Char.ofNat 0x301]), ('É', ['E', Char.ofNat 0x301]),
   ('Í', ['I', Char.ofNat 0x301]), ('Ó', ['O', Char.ofNat 0x301]),
   ('Ú', ['U', Char.ofNat 0x301]), ('Ü', ['U', Char.ofNat 0x308]),
   ('Ñ', ['N', Char.ofNat 0x303])]

/-- Canonical (NFD) decomposition of one character; characters outside
    the table are their own decomposition. -/
def nfdChar (c : Char) : List Char :=
  ((nfdPairs.find? (fun p => p.1 = c)).map (·.2)).getD [c]

/-- The `\p{Diacritic}` class, restricted to the combining diacritical
    marks block (U+0300..U+036F), which contains every mark the
    decomposition table can produce. -/
def isDiacritic (c : Char) : Bool :=
  0x300 ≤ c.toNat && c.toNat ≤ 0x36F

/-- The case table of the basic Latin letters. -/
def lowerPairs : List (Char × Char) :=
  [('A', 'a'), ('B', 'b'), ('C', 'c'), ('D', 'd'), ('E', 'e'), ('F', 'f'),
   ('G', 'g'), ('H', 'h'), ('I', 'i'), ('J', 'j'), ('K', 'k'), ('L', 'l'),
   ('M', 'm'), ('N', 'n'), ('O', 'o'), ('P', 'p'), ('Q', 'q'), ('R', 'r'),
   ('S', 's'), ('T', 't'), ('U', 'u'), ('V', 'v'), ('W', 'w'), ('X', 'x'),
   ('Y', 'y'), ('Z', 'z')]

/-- JS toLowerCase, restricted to the basic Latin letters; accented
    capitals are decomposed by `nfdChar` before this map is applied, so
    the restriction is invisible to the normalizer pipeline. -/
def lowerCh (c : Char) : Char :=
  ((lowerPairs.find? (fun p => p.1 = c)).map (·.2)).getD c

/-- String.prototype.trim: strip leading and trailing whitespace. -/
def trimStr (s : Str) : Str :=
  List.rdropWhile isWsChar (s.dropWhile isWsChar)

/-- The normalizer: NFD-decompose, drop diacritic marks, lowercase, trim
    (exactly the pipeline order of the source one-liner). -/
def norm (s : Str) : Str :=
  trimStr (((s.flatMap nfdChar).filter (fun c => !isDiacritic c)).map lowerCh)

/- ===== Catalog resolver ===== -/

/-- A catalog service: `{id: number, name: string, synonyms?: string[]}`. -/
structure Service where
  id : Int
  name : Str
  synonyms : Option (List Str)
deriving DecidableEq

/-- A catalog barber: `{id: number, name: string}`. -/
structure Barber where
  id : Int
  name : Str
deriving DecidableEq

/-- A validated catalog. -/
structure Catalog where
  services : List Service
  barbers : List Barber
deriving DecidableEq

/-- A JS `Map` from strings to ids, as its ordered entry list. -/
abbrev JsMap := List (Str × Int)

/-- `Map.prototype.set`: overwrite the value at an existing key in
    place, otherwise append a fresh entry. -/
def mapSet (m : JsMap) (k : Str) (v : Int) : JsMap :=
  match m with
  | [] => [(k, v)]
  | e :: rest => if e.1 = k then (k, v) :: rest else e :: mapSet rest k v

/-- `Map.prototype.get` (keys in a `JsMap` are unique, first match). -/
def mapGet (m : JsMap) (k : Str) : Option Int :=
  (m.find? (fun e => e.1 = k)).map (·.2)

/-- The normalized keys one service contributes to the lookup:
    `[s.name, ...(s.synonyms ?? [])].map(norm)`. -/
def serviceKeys (s : Service) : List Str :=
  (s.name :: s.synonyms.getD []).map norm

/-- The `byName` lookup built by `mapServicesToIds`'s first loop:
    every key of every service is `set` in catalog order. -/
def buildByName (catalogServices : List Service) : JsMap :=
  catalogServices.foldl (fun m s => (serviceKeys s).foldl (fun m k => mapSet m k s.id) m) []

/-- `[...new Set(out)]`: deduplicate, keeping first occurrences. -/
def dedupFirst : List Int → List Int
  | [] => []
  | x :: rest => x :: (dedupFirst rest).filter (fun y => y ≠ x)

/-- JS `String(v)` for the values the resolver can meet (array items are
    joined by commas with nulls blanked, objects stringify opaquely),
    written with a recursion budget so it evaluates by plain structural
    recursion; any budget at least the nesting depth is exact, so the
    wrapper below fixes one far beyond any value the handler can meet. -/
def jsToStringFuel : Nat → Json → Str
  | _, .null => strOf "null"
  | _, .bool true => strOf "true"
  | _, .bool false => strOf "false"
  | _, .num n => strOf (toString n)
  | _, .str s => s
  | 0, .arr _ => []
  | fuel+1, .arr elems =>
    List.intercalate [','] (elems.map (fun e => match e with
      | .null => []
      | e2 => jsToStringFuel fuel e2))
  | _, .obj _ => strOf "[object Object]"

/-- JS `String(v)`. -/
def jsToString (v : Json) : Str := jsToStringFuel 1000000 v

/-- One requested item of `mapServicesToIds`'s second loop:
    numbers pass through; anything else is stringified, normalized and
    looked up, and the hit is kept only when truthy (dropping id 0). -/
def resolveItem (byName : JsMap) (item : Json) : List Int :=
  match item with
  | .num n => [n]
  | other =>
    match mapGet byName (norm (jsToString other)) with
    | some id => if id ≠ 0 then [id] else []
    | none => []

/-- src/server.js lines 41-56: `mapServicesToIds(requested, catalogServices)`.
    Non-arrays resolve to `[]`; otherwise build the lookup, resolve each
    item, and deduplicate. -/
def mapServicesToIds (requested : Json) (catalogServices : List Service) : List Int :=
  match requested with
  | .arr items =>
    dedupFirst (items.flatMap (resolveItem (buildByName catalogServices)))
  | _ => []

/-- src/server.js lines 58-64: `mapBarberToId(requested, catalogBarbers)`.
    `null` stays null, numbers pass through, strings are normalized and
    matched against the first barber with the same normalized name. -/
def mapBarberToId (requested : Json) (catalogBarbers : List Barber) : Option Int :=
  match requested with
  | .null => none
  | .num n => some n
  | other =>
    match catalogBarbers.find? (fun b => norm b.name = norm (jsToString other)) with
    | some b => some b.id
    | none => none

/- ===== zod schemas (lines 14-35) ===== -/

/-- zod union of number and null. -/
def isNumOrNull : Json → Bool
  | .num _ => true
  | .null => true
  | _ => false

/-- zod union of string and null. -/
def isStrOrNull : Json → Bool
  | .str _ => true
  | .null => true
  | _ => false

/-- zod union of number and string (one requested service item). -/
def isNumOrStr : Json → Bool
  | .num _ => true
  | .str _ => true
  | _ => false

/-- The four literal tags of the intent enum. -/
def intentTags : List Str :=
  [strOf "create_appointment", strOf "get_next_appointment",
   strOf "search_services", strOf "small_talk"]

/-- The validated shape of the planner args object.  Every field is
    optional because the source wraps the object in zod's partial
    combinator; in particular an absent `services` key stays absent
    (`none`): ZodOptional answers `undefined` before the inner array
    default can fire, so the empty-list default is NOT applied here. -/
structure IntentArgs where
  barber : Option Json
  appointment_date : Option Json
  start_time : Option Json
  end_time : Option Json
  services : Option (List Json)

/-- A validated planner response. -/
structure IntentData where
  intent : Str
  args : IntentArgs

/-- One field of the partial args object: an absent key parses to
    `none`; a present value must pass the member check. -/
def parseOptField (args : Json) (key : Str) (check : Json → Bool) : Option (Option Json) :=
  match args.get? key with
  | none => some none
  | some v => if check v then some (some v) else none

/-- The `services` field: absent stays absent (see `IntentArgs`); a
    present value must be an array of numbers and strings. -/
def parseServicesField (args : Json) : Option (Option (List Json)) :=
  match args.get? (strOf "services") with
  | none => some none
  | some (.arr elems) => if elems.all isNumOrStr then some (some elems) else none
  | some _ => none

/-- `IntentSchema.safeParse` (lines 26-35): the value must be an object
    whose `intent` is one of the four tags and whose `args` is an object
    with well-typed optional fields; `none` is a validation failure. -/
def intentSafeParse (j : Json) : Option IntentData :=
  match j with
  | .obj _ => do
    let intentV ← j.get? (strOf "intent")
    match intentV with
    | .str tag =>
      if intentTags.contains tag then do
        let argsV ← j.get? (strOf "args")
        match argsV with
        | .obj _ => do
          let b ← parseOptField argsV (strOf "barber") isNumOrNull
          let d ← parseOptField argsV (strOf "appointment_date") isStrOrNull
          let st ← parseOptField argsV (strOf "start_time") isStrOrNull
          let et ← parseOptField argsV (strOf "end_time") isStrOrNull
          let sv ← parseServicesField argsV
          some ⟨tag, ⟨b, d, st, et, sv⟩⟩
        | _ => none
      else none
    | _ => none
  | _ => none

/-- One catalog service object: id number, name string, synonyms an
    optional array of strings (JS numbers modelled as integers). -/
def parseService (v : Json) : Option Service :=
  match v with
  | .obj _ => do
    let idV ← v.get? (strOf "id")
    let nameV ← v.get? (strOf "name")
    match idV, nameV with
    | .num i, .str nm =>
      match v.get? (strOf "synonyms") with
      | none => some ⟨i, nm, none⟩
      | some (.arr syns) => do
        let strs ← syns.mapM (fun s => match s with
          | .str s2 => some s2
          | _ => none)
        some ⟨i, nm, some strs⟩
      | some _ => none
    | _, _ => none
  | _ => none

/-- One catalog barber object: id number, name string. -/
def parseBarber (v : Json) : Option Barber :=
  match v with
  | .obj _ => do
    let idV ← v.get? (strOf "id")
    let nameV ← v.get? (strOf "name")
    match idV, nameV with
    | .num i, .str nm => some ⟨i, nm⟩
    | _, _ => none
  | _ => none

/-- A top-level catalog field with zod's array default: an absent key
    defaults to the empty list (no partial combinator here, so the
    default does fire); a present value must be a valid array. -/
def parseArrayField (j : Json) (key : Str) (parseElem : Json → Option A) : Option (List A) :=
  match j.get? key with
  | none => some []
  | some (.arr elems) => elems.mapM parseElem
  | some _ => none

/-- `CatalogSchema.safeParse` (lines 14-24). -/
def catalogSafeParse (j : Json) : Option Catalog :=
  match j with
  | .obj _ => do
    let ss ← parseArrayField j (strOf "services") parseService
    let bs ← parseArrayField j (strOf "barbers") parseBarber
    some ⟨ss, bs⟩
  | _ => none

/- ===== Planner raw output handling (lines 120-122) ===== -/

/-- The backtick character. -/
def backtick : Char := Char.ofNat 96

/-- An opening brace character. -/
def lbrace : Char := Char.ofNat 123

/-- A closing brace character. -/
def rbrace : Char := Char.ofNat 125

/-- Line 120: the planner message content, optional-chained and
    trimmed, with the absent and falsy-empty cases defaulting to the
    two-character source text of an empty JSON object. -/
def rawPlannerText (content : Option Str) : Str :=
  match content with
  | some s =>
    let t := trimStr s
    if t = [] then [lbrace, rbrace] else t
  | none => [lbrace, rbrace]

/-- Line 121: strip one leading case-insensitive code-fence marker with
    the whitespace run after it, and one trailing fence at the very end
    of the string (the two regex replaces of the source). -/
def stripFences (s : Str) : Str :=
  let s1 :=
    if s.take 3 = [backtick, backtick, backtick]
        ∧ ((s.drop 3).take 4).map lowerCh = strOf "json"
    then (s.drop 7).dropWhile isWsChar
    else s
  if s1.reverse.take 3 = [backtick, backtick, backtick]
  then (s1.reverse.drop 3).reverse
  else s1

/- ===== JSON.parse (line 122) =====
   A recursive-descent parser with an explicit recursion budget so that
   every definition is structurally recursive.  Model restrictions,
   none of which the handler's integer-id domain can notice: numeric
   literals are integers (a fraction dot or exponent fails the parse),
   and unescaped control characters inside strings are tolerated. -/

/-- A decimal digit. -/
def isDigitCh (c : Char) : Bool := '0' ≤ c && c ≤ '9'

/-- JSON source whitespace. -/
def isJsonWs (c : Char) : Bool := c = ' ' || c = '\t' || c = '\n' || c = '\r'

/-- Skip JSON source whitespace. -/
def skipWs (s : Str) : Str := s.dropWhile isJsonWs

/-- The value of one hexadecimal digit. -/
def hexVal (c : Char) : Option Nat :=
  if '0' ≤ c && c ≤ '9' then some (c.toNat - 48)
  else if 'a' ≤ c && c ≤ 'f' then some (c.toNat - 87)
  else if 'A' ≤ c && c ≤ 'F' then some (c.toNat - 55)
  else none

/-- The body of a JSON string after its opening quote: the decoded
    characters and the input after the closing quote. -/
def parseStringBody : Nat → Str → Option (Str × Str)
  | 0, _ => none
  | _, [] => none
  | fuel+1, c :: rest =>
    if c = '"' then some ([], rest)
    else if c = '\\' then
      match rest with
      | [] => none
      | e :: rest2 =>
        let esc :=
          if e = '"' then some ('"', rest2)
          else if e = '\\' then some ('\\', rest2)
          else if e = '/' then some ('/', rest2)
          else if e = 'n' then some ('\n', rest2)
          else if e = 't' then some ('\t', rest2)
          else if e = 'r' then some ('\r', rest2)
          else if e = 'b' then some (Char.ofNat 8, rest2)
          else if e = 'f' then some (Char.ofNat 12, rest2)
          else if e = 'u' then
            match rest2 with
            | h1 :: h2 :: h3 :: h4 :: rest3 =>
              match hexVal h1, hexVal h2, hexVal h3, hexVal h4 with
              | some a, some b, some c2, some d =>
                some (Char.ofNat (((a * 16 + b) * 16 + c2) * 16 + d), rest3)
              | _, _, _, _ => none
            | _ => none
          else none
        match esc with
        | some (ch, r) => (parseStringBody fuel r).map (fun p => (ch :: p.1, p.2))
        | none => none
    else (parseStringBody fuel rest).map (fun p => (c :: p.1, p.2))

/-- The leading run of decimal digits and the rest. -/
def takeDigits (s : Str) : List Char × Str :=
  (s.takeWhile isDigitCh, s.dropWhile isDigitCh)

/-- Decimal digits to a natural number. -/
def digitsToNat (ds : List Char) : Nat :=
  ds.foldl (fun acc c => acc * 10 + (c.toNat - 48)) 0

/-- Whether the rest of a numeric literal carries a fraction or an
    exponent (which the integer-only model rejects). -/
def startsNumTail (s : Str) : Bool :=
  match s with
  | c :: _ => c = '.' || c = 'e' || c = 'E'
  | [] => false

mutual

/-- Parse one JSON value (after skipping leading whitespace). -/
def parseVal : Nat → Str → Option (Json × Str)
  | 0, _ => none
  | fuel+1, s =>
    match skipWs s with
    | [] => none
    | c :: rest =>
      if c = 'n' then
        match rest with
        | 'u' :: 'l' :: 'l' :: r => some (.null, r)
        | _ => none
      else if c = 't' then
        match rest with
        | 'r' :: 'u' :: 'e' :: r => some (.bool true, r)
        | _ => none
      else if c = 'f' then
        match rest with
        | 'a' :: 'l' :: 's' :: 'e' :: r => some (.bool false, r)
        | _ => none
      else if c = '"' then
        (parseStringBody (rest.length + 1) rest).map (fun p => (.str p.1, p.2))
      else if c = '[' then
        match skipWs rest with
        | ']' :: r => some (.arr [], r)
        | r2 => (parseArrItems fuel r2).map (fun p => (.arr p.1, p.2))
      else if c = lbrace then
        match skipWs rest with
        | d :: r =>
          if d = rbrace then some (.obj [], r)
          else (parseObjItems fuel (d :: r)).map (fun p => (.obj p.1, p.2))
        | [] => none
      else if c = '-' then
        match takeDigits rest with
        | ([], _) => none
        | (ds, r) => if startsNumTail r then none else some (.num (-(digitsToNat ds : Int)), r)
      else if isDigitCh c then
        match takeDigits (c :: rest) with
        | (ds, r) => if startsNumTail r then none else some (.num (digitsToNat ds), r)
      else none

/-- Parse the items of a non-empty array up to the closing bracket. -/
def parseArrItems : Nat → Str → Option (List Json × Str)
  | 0, _ => none
  | fuel+1, s => do
    let (v, r) ← parseVal fuel s
    match skipWs r with
    | ',' :: r2 => (parseArrItems fuel r2).map (fun p => (v :: p.1, p.2))
    | ']' :: r2 => some ([v], r2)
    | _ => none

/-- Parse the members of a non-empty object up to the closing brace. -/
def parseObjItems : Nat → Str → Option (List (Str × Json) × Str)
  | 0, _ => none
  | fuel+1, s =>
    match skipWs s with
    | '"' :: r => do
      let (k, r2) ← parseStringBody (r.length + 1) r
      match skipWs r2 with
      | ':' :: r3 => do
        let (v, r4) ← parseVal fuel r3
        match skipWs r4 with
        | ',' :: r5 => (parseObjItems fuel r5).map (fun p => ((k, v) :: p.1, p.2))
        | d :: r5 => if d = rbrace then some ([(k, v)], r5) else none
        | [] => none
      | _ => none
    | _ => none

end

/-- JSON.parse: parse one value off the text and require only
    whitespace after it; `none` models a thrown SyntaxError. -/
def jsonParse (s : Str) : Option Json :=
  match parseVal (2 * s.length + 2) s with
  | some (j, rest) => if skipWs rest = [] then some j else none
  | none => none

/- ===== POST /chat, Mode A (lines 69-165) ===== -/

/-- Line 157: the filter producing meta.unmatchedServices: an item is
    kept when it is a string AND the whole resolved id list is empty. -/
def unmatchedServices (requestedServices : List Json) (serviceIds : List Int) : List Json :=
  requestedServices.filter (fun s => s.isStr && serviceIds.isEmpty)

/-- The response value of a requested nullable string arg: the string if
    one was validated, otherwise JSON null (absent coalesces to null). -/
def nullableStr : Option Json → Option Str
  | some (.str s) => some s
  | _ => none

/-- The three response shapes Mode A can produce: the small-talk
    fallback taken on validation failure (ok:true, mode small_talk,
    content), the assembled business response of lines 144-159 (ok:true
    with intent, args and meta), and the catch-all error of lines
    161-164 (HTTP 500, ok:false). -/
inductive ChatResponse where
  | fallbackTalk (content : Str)
  | success (mode : Str) (intent : Str) (barber : Option Int)
      (appointment_date : Option Str) (start_time : Option Str) (end_time : Option Str)
      (services : List Int) (unmatched : List Json)
  | serverError (error : Str)

/-- Mode A of POST /chat as a function of the request body and the two
    external model outputs (the Groq calls are the external boundary:
    `plannerContent` is the planner completion's message content and
    `talkContent` the small-talk completion's, `none` when absent).
    The request text only feeds the prompt, so it does not appear.
    JSON.parse of the planner text is NOT guarded by the safeParse: a
    parse failure propagates to the outer catch of lines 161-164. -/
def chatHandler (body : Json) (plannerContent : Option Str) (talkContent : Option Str) :
    ChatResponse :=
  let catalogV := (body.get? (strOf "catalog")).getD (.obj [])
  let catalog := (catalogSafeParse catalogV).getD ⟨[], []⟩
  let jsonStr := stripFences (rawPlannerText plannerContent)
  match jsonParse jsonStr with
  | none => .serverError (strOf "Fallo en el servicio de IA (Groq)")
  | some parsedJson =>
    match intentSafeParse parsedJson with
    | none => .fallbackTalk (talkContent.getD (strOf "🙂"))
    | some data =>
      let requestedServices := data.args.services.getD []
      let serviceIds := mapServicesToIds (.arr requestedServices) catalog.services
      let barberId := mapBarberToId (data.args.barber.getD .null) catalog.barbers
      .success
        (if data.intent = strOf "small_talk" then strOf "small_talk" else strOf "business")
        data.intent
        barberId
        (nullableStr data.args.appointment_date)
        (nullableStr data.args.start_time)
        (nullableStr data.args.end_time)
        serviceIds
        (unmatchedServices requestedServices serviceIds)

/- ===== Mode B (spec section 4.4, Mode B; not present in src/) ===== -/

/-- Modelled from the spec: the fixed Mode B template for the pickDate
    step, a deterministic sentence asking for a YYYY-MM-DD date
    (the Mode B handler is absent from src/, which only contains the
    Mode A revisions, so its wording is fixed here). -/
def pickDateTemplate : Str :=
  strOf "¿Para qué fecha deseas la cita? Usa el formato YYYY-MM-DD."

/-- Modelled from the spec: the viewSlots template interpolates the
    slot list from the context payload. -/
def slotsText (context : Json) : Str :=
  match context.get? (strOf "slots") with
  | some (.arr xs) => List.intercalate (strOf ", ") (xs.map jsToString)
  | _ => []

/-- Modelled from the spec: the confirm template interpolates barber id,
    date, time range and service count from the context payload. -/
def confirmText (context : Json) : Str :=
  strOf "Confirmo: barbero " ++ jsToString ((context.get? (strOf "barber_id")).getD .null)
    ++ strOf ", fecha " ++ jsToString ((context.get? (strOf "appointment_date")).getD .null)
    ++ strOf ", de " ++ jsToString ((context.get? (strOf "start_time")).getD .null)
    ++ strOf " a " ++ jsToString ((context.get? (strOf "end_time")).getD .null)
    ++ strOf ", servicios: " ++ jsToString ((context.get? (strOf "services")).getD .null)

/-- Modelled from the spec: the deterministic Mode B fallback sentence
    selected by step (spec section 4.4 Mode B item 2): each enumerated
    step has a fixed template, viewSlots and confirm interpolate the
    context, an unrecognized step echoes the system hint when present
    or a generic prompt for more information. -/
def fallbackTemplate (step systemHint : Str) (context : Json) : Str :=
  if step = strOf "selectServices" then strOf "¿Qué servicios deseas reservar?"
  else if step = strOf "selectBarber" then strOf "¿Con qué barbero prefieres tu cita?"
  else if step = strOf "pickDate" then pickDateTemplate
  else if step = strOf "viewSlots" then strOf "Horarios disponibles: " ++ slotsText context
  else if step = strOf "confirm" then confirmText context
  else if step = strOf "done" then strOf "¡Listo! Tu cita quedó registrada."
  else if systemHint ≠ [] then systemHint
  else strOf "¿Puedes darme más información?"

/-- Modelled from the spec: Mode B of POST /chat (spec sections 4.4
    Mode B and 6): with no model configured, or no usable model output,
    answer the templated fallback with provider tag fallback; otherwise
    answer the trimmed model text with provider tag groq. -/
def modeBHandler (modelConfigured : Bool) (modelContent : Option Str)
    (step systemHint : Str) (context : Json) : Str × Str :=
  if !modelConfigured then (fallbackTemplate step systemHint context, strOf "fallback")
  else
    match modelContent with
    | none => (fallbackTemplate step systemHint context, strOf "fallback")
    | some out =>
      let t := trimStr out
      if t = [] then (fallbackTemplate step systemHint context, strOf "fallback")
      else (t, strOf "groq")

/- ===== Proof-support definitions and concrete fixtures ===== -/

/-- The character-level core of the normalizer: decompose, strip marks,
    lowercase (one character's contribution before trimming). -/
def procChar (c : Char) : List Char :=
  ((nfdChar c).filter (fun x => !isDiacritic x)).map lowerCh

/-- The string-level core of the normalizer (`norm` before trimming). -/
def procStr (s : Str) : Str :=
  ((s.flatMap nfdChar).filter (fun c => !isDiacritic c)).map lowerCh

/-- A character the normalizer core maps to itself. -/
abbrev inertChar (c : Char) : Prop :=
  nfdChar c = [c] ∧ isDiacritic c = false ∧ lowerCh c = c

/-- The single catalog service of the spec's resolver test vector. -/
def svcCorte : Service := ⟨1, strOf "Corte", some [strOf "corte de pelo"]⟩

/-- A request body carrying a one-service catalog (corte, id 1). -/
def bodyWithCatalog : Json :=
  .obj [(strOf "catalog", .obj
    [(strOf "services", .arr [.obj [(strOf "id", .num 1), (strOf "name", .str (strOf "corte"))]]),
     (strOf "barbers", .arr [])])]

/-- Planner output text requesting one matched and one unknown service. -/
def plannerTwoServices : Str :=
  strOf "\x7b\"intent\":\"create_appointment\",\"args\":\x7b\"services\":[\"corte\",\"inexistente\"]\x7d\x7d"

/-- A request body with no catalog field. -/
def bodyNoCatalog : Json := .obj []

/-- Planner output text requesting only an unknown service. -/
def plannerUnknownService : Str :=
  strOf "\x7b\"intent\":\"create_appointment\",\"args\":\x7b\"services\":[\"inexistente\"]\x7d\x7d"

/-- The valid small-talk planner value with an empty args object. -/
def smallTalkInput : Json :=
  .obj [(strOf "intent", .str (strOf "small_talk")), (strOf "args", .obj [])]

/-- The planner value carrying an intent tag outside the enum. -/
def unknownTagInput : Json :=
  .obj [(strOf "intent", .str (strOf "unknown_tag"))]

/- ===== Lemmas about the normalizer ===== -/

lemma lowerPairs_inert : ∀ p ∈ lowerPairs, inertChar p.2 := by decide

lemma nfdPairs_proc_inert :
    ∀ p ∈ nfdPairs, ∀ d ∈ (p.2.filter (fun x => !isDiacritic x)).map lowerCh, inertChar d := by
  decide

lemma lowerCh_inert (c : Char) (h1 : nfdChar c = [c]) (h2 : isDiacritic c = false) :
    inertChar (lowerCh c) := by
  cases hf : lowerPairs.find? (fun p => p.1 = c) with
  | none =>
    have hl : lowerCh c = c := by simp [lowerCh, hf]
    rw [hl]
    exact ⟨h1, h2, hl⟩
  | some p =>
    have hl : lowerCh c = p.2 := by simp [lowerCh, hf]
    rw [hl]
    exact lowerPairs_inert p (List.mem_of_find?_eq_some hf)

lemma procChar_inert (c : Char) : ∀ d ∈ procChar c, inertChar d := by
  intro d hd
  unfold procChar at hd
  cases hf : nfdPairs.find? (fun p => p.1 = c) with
  | none =>
    have hn : nfdChar c = [c] := by simp [nfdChar, hf]
    rw [hn] at hd
    by_cases hdia : isDiacritic c = true
    · simp [List.filter, hdia] at hd
    · have h2 : isDiacritic c = false := by simpa using hdia
      simp [List.filter, h2] at hd
      rw [hd]
      exact lowerCh_inert c hn h2
  | some p =>
    have hn : nfdChar c = p.2 := by simp [nfdChar, hf]
    rw [hn] at hd
    exact nfdPairs_proc_inert p (List.mem_of_find?_eq_some hf) d hd

lemma procChar_eq_self (c : Char) (h : inertChar c) : procChar c = [c] := by
  obtain ⟨h1, h2, h3⟩ := h
  unfold procChar
  rw [h1]
  simp [List.filter, h2, h3]

lemma procStr_eq_flatMap (s : Str) : procStr s = s.flatMap procChar := by
  induction s with
  | nil => rfl
  | cons a t ih =>
    simp only [procStr, procChar, List.flatMap_cons, List.filter_append, List.map_append] at ih ⊢
    rw [ih]

lemma procStr_fixed (s : Str) (h : ∀ c ∈ s, inertChar c) : procStr s = s := by
  rw [procStr_eq_flatMap]
  induction s with
  | nil => rfl
  | cons a t ih =>
    rw [List.flatMap_cons, procChar_eq_self a (h a (by simp)),
      ih (fun c hc => h c (by simp [hc]))]
    rfl

lemma dropWhile_head?_false (p : Char → Bool) (l : Str) :
    ∀ c, (l.dropWhile p).head? = some c → p c = false := by
  induction l with
  | nil => intro c hc; simp [List.dropWhile] at hc
  | cons a t ih =>
    intro c hc
    by_cases hp : p a
    · exact ih c (by simpa [List.dropWhile_cons, hp] using hc)
    · rw [List.dropWhile_cons] at hc
      simp [hp] at hc
      rw [← hc]
      simpa using hp

lemma dropWhile_eq_self_of_head (p : Char → Bool) (l : Str)
    (h : ∀ c, l.head? = some c → p c = false) : l.dropWhile p = l := by
  cases l with
  | nil => rfl
  | cons a t => simp [List.dropWhile_cons, h a rfl]

lemma rdropWhile_eq_self_of_getLast (p : Char → Bool) (l : Str)
    (h : ∀ c, l.getLast? = some c → p c = false) : List.rdropWhile p l = l := by
  unfold List.rdropWhile
  rw [dropWhile_eq_self_of_head p l.reverse (fun c hc => h c (by rwa [List.head?_reverse] at hc)),
    List.reverse_reverse]

lemma trimStr_head?_false (l : Str) :
    ∀ c, (trimStr l).head? = some c → isWsChar c = false := by
  intro c hc
  obtain ⟨t, ht⟩ := List.rdropWhile_prefix isWsChar (l.dropWhile isWsChar)
  have hx : (l.dropWhile isWsChar).head? = some c := by
    rw [← ht, List.head?_append]
    unfold trimStr at hc
    rw [hc]
    rfl
  exact dropWhile_head?_false isWsChar l c hx

lemma trimStr_getLast?_false (l : Str) :
    ∀ c, (trimStr l).getLast? = some c → isWsChar c = false := by
  intro c hc
  unfold trimStr List.rdropWhile at hc
  rw [List.getLast?_reverse] at hc
  exact dropWhile_head?_false isWsChar _ c hc

lemma trimStr_idem (l : Str) : trimStr (trimStr l) = trimStr l := by
  show List.rdropWhile isWsChar ((trimStr l).dropWhile isWsChar) = trimStr l
  rw [dropWhile_eq_self_of_head _ _ (trimStr_head?_false l)]
  exact rdropWhile_eq_self_of_getLast _ _ (trimStr_getLast?_false l)

lemma mem_of_mem_trimStr {c : Char} {l : Str} (h : c ∈ trimStr l) : c ∈ l := by
  unfold trimStr List.rdropWhile at h
  rw [List.mem_reverse] at h
  exact (List.dropWhile_sublist _).subset ((List.mem_reverse).mp ((List.dropWhile_sublist _).subset h))

/-- Claim C6: the text normalizer is idempotent: for every string,
    normalizing twice equals normalizing once. -/
theorem C6_norm_idempotent (s : Str) : norm (norm s) = norm s := by
  have hin : ∀ c ∈ norm s, inertChar c := by
    intro c hc
    have hc1 : c ∈ trimStr (procStr s) := hc
    have hc2 : c ∈ procStr s := mem_of_mem_trimStr hc1
    rw [procStr_eq_flatMap] at hc2
    obtain ⟨a, _, hd⟩ := List.mem_flatMap.mp hc2
    exact procChar_inert a c hd
  have hfix : procStr (norm s) = norm s := procStr_fixed _ hin
  show trimStr (procStr (norm s)) = norm s
  rw [hfix]
  show trimStr (trimStr (procStr s)) = trimStr (procStr s)
  exact trimStr_idem _

/- ===== Lemmas about the resolver ===== -/

lemma mem_of_mem_dedupFirst {i : Int} : ∀ {l : List Int}, i ∈ dedupFirst l → i ∈ l := by
  intro l
  induction l with
  | nil => intro h; cases h
  | cons a t ih =>
    intro h
    rcases List.mem_cons.mp h with h1 | h1
    · simp [h1]
    · exact List.mem_cons_of_mem _ (ih (List.mem_of_mem_filter h1))

lemma jsToString_str (s : Str) : jsToString (.str s) = s := rfl

lemma resolveItem_not_num (byName : JsMap) (item : Json) (hnum : ∀ n, item ≠ Json.num n) :
    resolveItem byName item =
      (match mapGet byName (norm (jsToString item)) with
       | some id => if id ≠ 0 then [id] else []
       | none => []) := by
  cases item <;> first | rfl | exact absurd rfl (hnum _)

lemma resolveItem_mem (byName : JsMap) (item : Json) (i : Int)
    (h : i ∈ resolveItem byName item) :
    item = Json.num i ∨ mapGet byName (norm (jsToString item)) = some i := by
  by_cases hn : ∃ n, item = Json.num n
  · obtain ⟨n, rfl⟩ := hn
    left
    simp only [resolveItem, List.mem_singleton] at h
    rw [h]
  · push_neg at hn
    rw [resolveItem_not_num byName item hn] at h
    right
    cases hg : mapGet byName (norm (jsToString item)) with
    | none => rw [hg] at h; cases h
    | some id =>
      rw [hg] at h
      by_cases hz : id = 0
      · rw [hz] at h; simp at h
      · simp only [ne_eq, hz, not_false_eq_true, if_true, List.mem_singleton] at h
        exact congrArg some h.symm

lemma resolveItem_zero (byName : JsMap) (item : Json)
    (h : (0 : Int) ∈ resolveItem byName item) : item = Json.num 0 := by
  by_cases hn : ∃ n, item = Json.num n
  · obtain ⟨n, rfl⟩ := hn
    simp only [resolveItem, List.mem_singleton] at h
    rw [← h]
  · push_neg at hn
    rw [resolveItem_not_num _ _ hn] at h
    exfalso
    cases hg : mapGet byName (norm (jsToString item)) with
    | none => rw [hg] at h; cases h
    | some id =>
      rw [hg] at h
      by_cases hz : id = 0
      · rw [hz] at h; simp at h
      · simp only [ne_eq, hz, not_false_eq_true, if_true, List.mem_singleton] at h
        exact hz h.symm

lemma mapGet_nil (k : Str) : mapGet [] k = none := rfl

lemma mapGet_cons (e : Str × Int) (t : JsMap) (k : Str) :
    mapGet (e :: t) k = if e.1 = k then some e.2 else mapGet t k := by
  by_cases he : e.1 = k
  · simp [mapGet, List.find?_cons_of_pos, he]
  · simp [mapGet, List.find?_cons_of_neg, he]

lemma mapGet_mapSet (m : JsMap) (k2 k : Str) (v : Int) :
    mapGet (mapSet m k2 v) k = if k2 = k then some v else mapGet m k := by
  induction m with
  | nil =>
    show mapGet [(k2, v)] k = _
    rw [mapGet_cons, mapGet_nil]
  | cons e t ih =>
    show mapGet (if e.1 = k2 then (k2, v) :: t else e :: mapSet t k2 v) k = _
    by_cases he : e.1 = k2
    · rw [if_pos he, mapGet_cons, mapGet_cons]
      by_cases hk : k2 = k
      · rw [if_pos hk, if_pos hk]
      · rw [if_neg hk, if_neg hk, if_neg (by rw [he]; exact hk)]
    · rw [if_neg he, mapGet_cons, ih, mapGet_cons]
      by_cases hk : k2 = k
      · rw [if_pos hk, if_pos hk, if_neg (by rw [← hk]; exact he)]
      · rw [if_neg hk, if_neg hk]

lemma mapGet_foldlSet (keys : List Str) (v : Int) (k : Str) :
    ∀ m, mapGet (keys.foldl (fun m2 k2 => mapSet m2 k2 v) m) k =
      if k ∈ keys then some v else mapGet m k := by
  induction keys with
  | nil => intro m; simp
  | cons k2 rest ih =>
    intro m
    rw [List.foldl_cons, ih, mapGet_mapSet]
    by_cases h1 : k ∈ rest
    · simp [h1]
    · by_cases h2 : k2 = k
      · simp [h1, h2]
      · have h3 : ¬k = k2 := fun h => h2 h.symm
        simp [h1, h2, h3, List.mem_cons]

lemma mapGet_buildByName (services : List Service) (k : Str) :
    mapGet (buildByName services) k =
      (services.reverse.find? (fun s => decide (k ∈ serviceKeys s))).map (·.id) := by
  induction services using List.reverseRecOn with
  | nil => rfl
  | append_singleton ss s ih =>
    unfold buildByName
    rw [List.foldl_append, List.foldl_cons, List.foldl_nil, mapGet_foldlSet]
    have ihb : mapGet (buildByName ss) k =
        (ss.reverse.find? (fun s2 => decide (k ∈ serviceKeys s2))).map (·.id) := ih
    unfold buildByName at ihb
    rw [ihb, List.reverse_append, List.reverse_singleton, List.singleton_append, List.find?_cons]
    by_cases hk : k ∈ serviceKeys s
    · simp [hk]
    · simp [hk]

lemma mapGet_buildByName_id (services : List Service) (k : Str) (i : Int)
    (h : mapGet (buildByName services) k = some i) : ∃ s ∈ services, s.id = i := by
  rw [mapGet_buildByName] at h
  cases hf : services.reverse.find? (fun s => decide (k ∈ serviceKeys s)) with
  | none => rw [hf] at h; cases h
  | some s =>
    rw [hf] at h
    refine ⟨s, ?_, ?_⟩
    · exact List.mem_reverse.mp (List.mem_of_find?_eq_some hf)
    · exact Option.some_inj.mp h

lemma find?_barber_id (barbers : List Barber) (p : Barber → Bool) (i : Int)
    (h : (match barbers.find? p with | some b => some b.id | none => none) = some i) :
    ∃ b ∈ barbers, b.id = i := by
  cases hf : barbers.find? p with
  | none => rw [hf] at h; cases h
  | some b =>
    rw [hf] at h
    exact ⟨b, List.mem_of_find?_eq_some hf, Option.some_inj.mp h⟩

/- ===== Claim theorems about the resolver ===== -/

/-- Claim C1 (counterexample): a numeric service id 99 and a numeric
    barber id 99 pass through the resolver unchanged although the
    catalog supplied in the same request is empty, so Resolved Args can
    carry ids absent from the catalog when the model sends numbers. -/
theorem C1_counterexample :
    mapServicesToIds (Json.arr [Json.num 99]) [] = [99]
  ∧ mapBarberToId (Json.num 99) [] = some 99
  ∧ ∀ s ∈ ([] : List Service), s.id ≠ 99 :=
  ⟨rfl, rfl, by simp⟩

/-- Claim C1 (amended): every id in the resolver's output either was
    requested numerically (pass-through, unchecked against the catalog)
    or is the id of a catalog entry; ids resolved from strings always
    come from the catalog supplied in the same request. -/
theorem C1_resolved_ids_from_request_or_catalog :
    (∀ requested catalogServices i, i ∈ mapServicesToIds requested catalogServices →
        (∃ items, requested = Json.arr items ∧ Json.num i ∈ items)
      ∨ ∃ s ∈ catalogServices, s.id = i)
  ∧ (∀ requested catalogBarbers i, mapBarberToId requested catalogBarbers = some i →
        requested = Json.num i ∨ ∃ b ∈ catalogBarbers, b.id = i) := by
  constructor
  · intro requested catalogServices i h
    cases requested with
    | arr items =>
      have h2 : i ∈ items.flatMap (resolveItem (buildByName catalogServices)) :=
        mem_of_mem_dedupFirst h
      obtain ⟨item, hitem, hres⟩ := List.mem_flatMap.mp h2
      rcases resolveItem_mem _ _ _ hres with heq | hg
      · rw [heq] at hitem
        exact Or.inl ⟨items, rfl, hitem⟩
      · exact Or.inr (mapGet_buildByName_id _ _ _ hg)
    | null => cases h
    | bool b => cases h
    | num n => cases h
    | str s => cases h
    | obj fs => cases h
  · intro requested catalogBarbers i h
    cases requested with
    | null => cases h
    | num n =>
      left
      have : some n = some i := h
      rw [Option.some_inj.mp this]
    | bool b => exact Or.inr (find?_barber_id _ _ _ h)
    | str s => exact Or.inr (find?_barber_id _ _ _ h)
    | arr xs => exact Or.inr (find?_barber_id _ _ _ h)
    | obj fs => exact Or.inr (find?_barber_id _ _ _ h)

/-- Claim C1 witness: the amended theorem applied at concrete inputs. -/
theorem C1_resolved_ids_from_request_or_catalog_witness :
    ((∃ items, Json.arr [Json.num 5] = Json.arr items ∧ Json.num 5 ∈ items)
      ∨ ∃ s ∈ ([] : List Service), s.id = 5)
  ∧ (Json.num 7 = Json.num 7 ∨ ∃ b ∈ ([] : List Barber), b.id = 7) :=
  ⟨C1_resolved_ids_from_request_or_catalog.1 (Json.arr [Json.num 5]) [] 5 (by decide),
   C1_resolved_ids_from_request_or_catalog.2 (Json.num 7) [] 7 rfl⟩

/-- Claim C2 (counterexample): two services whose names normalize to the
    same key; resolving that key returns the id of the SECOND entry, not
    the first, because Map.set overwrites on collision. -/
theorem C2_counterexample :
    mapServicesToIds (Json.arr [Json.str (strOf "a")])
      [⟨1, strOf "a", none⟩, ⟨2, strOf "a", none⟩] = [2]
  ∧ (2 : Int) ≠ 1 :=
  ⟨rfl, by decide⟩

/-- Claim C2 (amended): on key collisions the LATER catalog entry wins:
    the lookup resolves a key to the id of the last service (in catalog
    construction order) that introduces it — witnessed generally by the
    characterization through find? over the reversed catalog, and
    concretely on a two-service collision. -/
theorem C2_collision_later_entry_wins :
    (∀ services k, mapGet (buildByName services) k =
        (services.reverse.find? (fun s => decide (k ∈ serviceKeys s))).map (·.id))
  ∧ mapServicesToIds (Json.arr [Json.str (strOf "dup")])
      [⟨1, strOf "dup", none⟩, ⟨2, strOf "dup", none⟩] = [2] :=
  ⟨mapGet_buildByName, rfl⟩

/-- Claim C3: the code contradicts the claim: when the planner output is
    the plain text sentence (not parseable as JSON), JSON.parse throws,
    the outer catch answers, and the caller receives the HTTP 500
    ok:false error response instead of the promised small-talk one. -/
theorem C3_unparseable_output_hits_catch :
    chatHandler (Json.obj []) (some (strOf "I cannot help with that")) (some (strOf "hola")) =
      ChatResponse.serverError (strOf "Fallo en el servicio de IA (Groq)") := rfl

/-- Claim C4: the spec's resolver test vector: case- and diacritic-
    insensitive match, synonym match, numeric pass-through, duplicate
    collapse and silent drop of the unknown name give exactly the
    singleton id list. -/
theorem C4_resolver_test_vector :
    mapServicesToIds
      (Json.arr [Json.str (strOf "CORTE"), Json.str (strOf "corte de pelo"),
        Json.num 1, Json.str (strOf "inexistente")])
      [svcCorte] = [1] := rfl

/-- Claim C5: barber resolution: null stays null, a number passes
    through unchanged, a string is normalized and matched against the
    first barber with the same normalized name; concretely an unaccented
    request matches the accented catalog name and an unknown name gives
    null. -/
theorem C5_barber_resolution :
    (∀ catalogBarbers, mapBarberToId Json.null catalogBarbers = none)
  ∧ (∀ n catalogBarbers, mapBarberToId (Json.num n) catalogBarbers = some n)
  ∧ (∀ s catalogBarbers, mapBarberToId (Json.str s) catalogBarbers =
      (catalogBarbers.find? (fun b => norm b.name = norm s)).map (·.id))
  ∧ mapBarberToId (Json.str (strOf "jose")) [⟨2, strOf "José"⟩] = some 2
  ∧ mapBarberToId (Json.str (strOf "Pedro")) [⟨2, strOf "José"⟩] = none := by
  refine ⟨fun _ => rfl, fun _ _ => rfl, ?_, rfl, rfl⟩
  intro s catalogBarbers
  show (match catalogBarbers.find? (fun b => norm b.name = norm (jsToString (.str s))) with
        | some b => some b.id
        | none => none) = _
  rw [jsToString_str]
  cases hf : catalogBarbers.find? (fun b => norm b.name = norm s) <;> simp [hf]

/-- Claim C7 (counterexample): with catalog service corte (id 1) and the
    planner requesting corte and the unknown name inexistente, the
    response resolves services to the single id and reports NO unmatched
    services, although inexistente failed to resolve (second conjunct). -/
theorem C7_counterexample :
    chatHandler bodyWithCatalog (some plannerTwoServices) none =
      ChatResponse.success (strOf "business") (strOf "create_appointment")
        none none none none [1] []
  ∧ mapServicesToIds (Json.arr [Json.str (strOf "inexistente")]) [⟨1, strOf "corte", none⟩] = [] :=
  ⟨rfl, rfl⟩

/-- Claim C7 (amended): meta.unmatchedServices is all-or-nothing: it
    lists every string-typed requested item when no service id resolved
    at all, and is empty as soon as at least one id resolved; concretely
    a sole unknown name is reported when nothing resolved. -/
theorem C7_unmatched_all_or_nothing :
    (∀ items serviceIds, unmatchedServices items serviceIds =
        if serviceIds.isEmpty then items.filter Json.isStr else [])
  ∧ chatHandler bodyNoCatalog (some plannerUnknownService) none =
      ChatResponse.success (strOf "business") (strOf "create_appointment")
        none none none none [] [Json.str (strOf "inexistente")] := by
  constructor
  · intro items serviceIds
    unfold unmatchedServices
    cases h : serviceIds.isEmpty <;> simp [h]
  · rfl

/-- Claim C8 (counterexample): the validator accepts the small-talk
    value with empty args, but the validated args.services is ABSENT
    (none), not the empty sequence: the partial combinator wraps the
    array default in an optional that answers before the default fires. -/
theorem C8_counterexample :
    (intentSafeParse smallTalkInput).map (fun d => d.args.services) = some none
  ∧ (none : Option (List Json)) ≠ some [] :=
  ⟨rfl, fun h => Option.noConfusion h⟩

/-- Claim C8 (amended): the validator rejects the unknown intent tag and
    accepts the small-talk value with empty args, but args.services
    stays absent (none) rather than defaulting to the empty sequence;
    the empty list only appears downstream where the handler coalesces
    the absent field. -/
theorem C8_validator_enum_and_partial_default :
    intentSafeParse unknownTagInput = none
  ∧ (intentSafeParse smallTalkInput).map (fun d => d.args.services) = some none
  ∧ (intentSafeParse smallTalkInput).map (fun d => d.args.services.getD []) = some [] :=
  ⟨rfl, rfl, rfl⟩

/-- Claim C9: with no model configured, Mode B answers the pickDate step
    with the one fixed templated sentence asking for a YYYY-MM-DD date,
    whatever the context payload, the system hint and the (ignored)
    model output are. -/
theorem C9_pickDate_fallback_deterministic (modelContent : Option Str)
    (systemHint : Str) (context : Json) :
    modeBHandler false modelContent (strOf "pickDate") systemHint context =
      (pickDateTemplate, strOf "fallback") := rfl

/-- Claim C10: string-resolved hits are kept only when truthy, so id 0
    can enter the result only as a numeric pass-through (first
    conjunct); a non-array requested value resolves to the empty list
    (second conjunct); concretely a string exactly matching a service
    whose id is 0 is dropped (third conjunct). -/
theorem C10_zero_id_dropped_and_non_array_empty :
    (∀ items catalogServices, 0 ∈ mapServicesToIds (Json.arr items) catalogServices →
        Json.num 0 ∈ items)
  ∧ (∀ requested catalogServices, (∀ items, requested ≠ Json.arr items) →
        mapServicesToIds requested catalogServices = [])
  ∧ mapServicesToIds (Json.arr [Json.str (strOf "corte")]) [⟨0, strOf "corte", none⟩] = [] := by
  refine ⟨?_, ?_, rfl⟩
  · intro items catalogServices h
    have h2 : (0 : Int) ∈ items.flatMap (resolveItem (buildByName catalogServices)) :=
      mem_of_mem_dedupFirst h
    obtain ⟨item, hitem, hres⟩ := List.mem_flatMap.mp h2
    rw [resolveItem_zero _ _ hres] at hitem
    exact hitem
  · intro requested catalogServices hne
    cases requested with
    | arr items => exact absurd rfl (hne items)
    | null => rfl
    | bool b => rfl
    | num n => rfl
    | str s => rfl
    | obj fs => rfl

/-- Claim C10 witness: the theorem applied at concrete inputs: a literal
    zero can only come from a numeric item, and a plain string request
    resolves to nothing. -/
theorem C10_zero_id_dropped_and_non_array_empty_witness :
    Json.num 0 ∈ [Json.num 0]
  ∧ mapServicesToIds (Json.str (strOf "zz")) [] = [] :=
  ⟨C10_zero_id_dropped_and_non_array_empty.1 [Json.num 0] [] (by decide),
   C10_zero_id_dropped_and_non_array_empty.2.1 (Json.str (strOf "zz")) []
     (fun items h => Json.noConfusion h)⟩

end AssistantServer
